import Mathlib

/-!
Verification development for the office music-guessing game server
(`server.js`).  The definitions below are shallow embeddings of the
server code: the text normalizer `clean`, the dynamic-programming
`levenshtein` distance, the `submitGuess` socket handler, the
`disconnect` handler's host recomputation, and the per-round countdown
tick loop with its hint-reveal schedule.  Theorems settle the spec's
claims against these embeddings.
-/

namespace MusicGame

/-! ## Levenshtein distance (server.js lines 8-26)

The JS code fills a `(b.length+1) x (a.length+1)` matrix where
`matrix[i][j]` is the edit distance between the first `j` characters of
`a` and the first `i` characters of `b`.  Each matrix cell depends only
on cells of the previous row and the cell to its left, so the
loop-filled table is computed by the following pair of structural
recursions (row `i+1` is defined from the whole previous row); the
lemma `levMatrix_succ_succ` below restates the source recurrence
verbatim. -/

/-- Row `i+1` of the matrix, given the full previous row `prev`
(row `i`): `matrix[i+1][0] = i+1`, and `matrix[i+1][j+1]` compares
`b.charAt(i)` with `a.charAt(j)` exactly as server.js lines 18-22. -/
def levRowFn (a b : List Char) (i : Nat) (prev : Nat → Nat) : Nat → Nat
  | 0 => i + 1
  | j + 1 =>
    if b.getD i ' ' = a.getD j ' ' then
      prev j
    else
      min (prev j + 1)
        (min (levRowFn a b i prev j + 1) (prev (j + 1) + 1))

/-- Matrix cell `matrix[i][j]` of the dynamic program in `levenshtein`
(server.js lines 13-24): row 0 is `0,1,2,...`, row `i+1` is obtained
from row `i` by the loop body. -/
def levMatrix (a b : List Char) : Nat → Nat → Nat
  | 0 => fun j => j
  | i + 1 => levRowFn a b i (levMatrix a b i)

/-- `levenshtein(a, b)` from server.js lines 8-26: early returns for an
empty argument, otherwise the `matrix[b.length][a.length]` cell of the
dynamic program. -/
def levenshtein (a b : String) : Nat :=
  if a.length = 0 then b.length
  else if b.length = 0 then a.length
  else levMatrix a.data b.data b.data.length a.data.length

/-- Whitespace class `\s` of the JS regexes (ASCII part). -/
def jsIsSpace (c : Char) : Bool :=
  c == ' ' || c == '\t' || c == '\n' || c == '\r' ||
    c == '\x0b' || c == '\x0c'

/-- Word-character class `\w` of the JS regexes: `[A-Za-z0-9_]`. -/
def jsIsWord (c : Char) : Bool :=
  c.isAlphanum || c == '_'

/-- For the greedy pattern `\(.*\)` (resp. `\[.*\]`) starting just after
the opening character: `.` does not cross a newline, so the match ends
at the last `close` character before the next newline.  Returns the
remainder of the input after that closer, or `none` when the pattern
cannot match here. -/
def afterLastClose (close : Char) (cs : List Char) : Option (List Char) :=
  let seg := cs.takeWhile (fun x => x != '\n')
  if seg.contains close then
    some ((seg.reverse.takeWhile (fun x => x != close)).reverse ++
      cs.drop seg.length)
  else
    none

/-- Global replacement `replace(/\(.*\)|\[.*\]/g, "")`: scan left to
right; at an opening `(` or `[` try the greedy bracket match and drop
it, otherwise keep the character.  `fuel` bounds the recursion depth;
every step strictly shortens the list, so `fuel = length` suffices
(`stripGroupsFuel_congr`). -/
def stripGroupsFuel : Nat → List Char → List Char
  | 0, cs => cs
  | _, [] => []
  | fuel + 1, c :: cs =>
    if c = '(' then
      match afterLastClose ')' cs with
      | some rest => stripGroupsFuel fuel rest
      | none => c :: stripGroupsFuel fuel cs
    else if c = '[' then
      match afterLastClose ']' cs with
      | some rest => stripGroupsFuel fuel rest
      | none => c :: stripGroupsFuel fuel cs
    else
      c :: stripGroupsFuel fuel cs

/-- `replace(/\(.*\)|\[.*\]/g, "")` applied to the whole input. -/
def stripGroups (cs : List Char) : List Char :=
  stripGroupsFuel cs.length cs

/-- Global dash replacement (second `replace` in `clean`): from each
dash, drop to the end of the line.  Fuel as in `stripGroupsFuel`. -/
def stripDashFuel : Nat → List Char → List Char
  | 0, cs => cs
  | _, [] => []
  | fuel + 1, c :: cs =>
    if c = '-' then
      stripDashFuel fuel (cs.dropWhile (fun x => x != '\n'))
    else
      c :: stripDashFuel fuel cs

/-- The dash replacement applied to the whole input. -/
def stripDash (cs : List Char) : List Char :=
  stripDashFuel cs.length cs

/-- `trim()`: strip leading and trailing whitespace. -/
def trimChars (l : List Char) : List Char :=
  ((l.dropWhile jsIsSpace).reverse.dropWhile jsIsSpace).reverse

/-- The `clean` normalizer (server.js lines 52-59). -/
def clean (s : String) : String :=
  String.mk
    (trimChars
      ((stripDash (stripGroups (s.data.map Char.toLower))).filter
        (fun c => jsIsWord c || jsIsSpace c)))

/-- Substring test on character lists (structural): the needle is a
prefix here, or a substring of the tail. -/
def isSubstrList (needle : List Char) : List Char → Bool
  | [] => needle.isEmpty
  | c :: rest => needle.isPrefixOf (c :: rest) || isSubstrList needle rest

/-- JS `haystack.includes(needle)`: substring containment. -/
def jsIncludes (haystack needle : String) : Bool :=
  isSubstrList needle.data haystack.data

/-! ## Game state (server.js lines 34-49)

The module-level mutable variables of server.js, gathered into one
record.  Player ids are the opaque socket ids; `players` is an ordered
association list mirroring the insertion order of the JS object
(socket ids are non-numeric strings, so JS preserves insertion order,
and `Object.keys(players)[0]` is the first-joined surviving player).
`roundWinners` and `submittedPlayers` are JS `Set`s; they are
represented as lists to which elements are only ever added under a
not-a-member guard, so they stay duplicate-free and list length equals
set size. -/

structure Player where
  name : String
  color : String
  score : Int
  hasSubmitted : Bool
  deriving DecidableEq

structure Track where
  trackName : String
  artistName : String
  submitterId : String
  submitterName : String
  deriving DecidableEq

structure GameState where
  players : List (String × Player)
  gameQueue : List Track
  gamePhase : String
  currentRoundIndex : Nat
  roundStartTime : Nat
  submittedPlayers : List String
  roundWinners : List String
  isRoundActive : Bool
  currentDjPoints : Int
  deriving DecidableEq

/-- Private messages sent through `guessResult`; each constructor
stands for one literal message string of server.js (the spoiler
warning of line 196, the self-spoiler warning of line 206, and the
artist correction of line 216). -/
inductive GuessMsg where
  | dontSpoil
  | dontSpoilOwn
  | artistNotTitle
  deriving DecidableEq

/-- Observable emissions of the `submitGuess` and `disconnect`
handlers.  `correctMessage` is the `chatMessage` broadcast of line 242
whose text interpolates the earned points; `scheduleEarlyEnd` is the
`setTimeout` of line 246 that ends the round early;
`playerJoinedEvent` carries the recomputed host id broadcast by the
disconnect handler (line 271). -/
inductive Effect where
  | chatMessage (name text ty color : String)
  | correctMessage (name : String) (points : Int) (color : String)
  | guessResult (correct : Bool) (points : Option Int)
      (message : Option GuessMsg) (silent : Bool)
  | scheduleEarlyEnd
  | playerJoinedEvent (hostIdField : Option String)
  deriving DecidableEq

/-- `players[pid].score += delta` (leaves every other entry intact). -/
def updateScore (ps : List (String × Player)) (pid : String) (delta : Int) :
    List (String × Player) :=
  ps.map fun entry =>
    if entry.1 = pid then
      (entry.1, { entry.2 with score := entry.2.score + delta })
    else entry

/-- server.js line 214:
`(userGuess.length > 2 && artist.includes(userGuess)) || userGuess === artist`. -/
def isArtistMatch (userGuess artist : String) : Bool :=
  (decide (2 < userGuess.length) && jsIncludes artist userGuess) ||
    userGuess == artist

/-- server.js line 222:
`(userGuess.length >= title.length * 0.5) && title.includes(userGuess)`.
For natural-number lengths the float comparison against `0.5 * length`
is exactly `2 * userGuess.length >= title.length`. -/
def isSignificantPart (userGuess title : String) : Bool :=
  decide (title.length ≤ 2 * userGuess.length) && jsIncludes title userGuess

/-- server.js line 225: `Math.max(1, Math.floor(title.length * 0.2))`;
for natural-number lengths the float expression equals `length / 5`
rounded down. -/
def allowedTypos (title : String) : Nat :=
  max 1 (title.length / 5)

/-- The win condition of server.js line 227:
`isSignificantPart || isExactMatch || titleDist <= allowedTypos`. -/
def titleGuessAccepted (userGuess title : String) : Bool :=
  isSignificantPart userGuess title || userGuess == title ||
    decide (levenshtein userGuess title ≤ allowedTypos title)

/-- server.js line 230: `Math.max(5, Math.ceil(30 - elapsedSeconds))`
with `elapsedSeconds = (now - roundStartTime) / 1000`.  The ceiling of
the rational `30 - elapsedMs / 1000` is computed as minus the floor
division of `elapsedMs - 30000` by `1000` so that the definition is
kernel-computable; `pointsEarned_eq_ceil` proves it equal to the
literal formula over `ℚ`. -/
def pointsEarned (elapsedMs : Nat) : Int :=
  max 5 (-(((elapsedMs : Int) - 30000) / 1000))

/-- The `submitGuess` handler (server.js lines 176-252).  `now` is the
value of `Date.now()` at line 228 in milliseconds.  The result is
`none` exactly when the JS handler would throw a `TypeError`: at line
180 (`player.name` with `players[socket.id]` undefined) and at line 191
(`currentTrack.trackName` with `gameQueue[currentRoundIndex]`
undefined). -/
def submitGuess (st : GameState) (senderId guess : String) (now : Nat) :
    Option (GameState × List Effect) :=
  if st.gamePhase ≠ "playing" then some (st, [])
  else
    match st.players.lookup senderId with
    | none => none
    | some player =>
      if ¬ st.isRoundActive then
        some (st, [.chatMessage player.name guess "chat" player.color,
          .guessResult true (some 0) none true])
      else
        match st.gameQueue.get? st.currentRoundIndex with
        | none => none
        | some currentTrack =>
          let userGuess := clean guess
          let title := clean currentTrack.trackName
          let artist := clean currentTrack.artistName
          if senderId ∈ st.roundWinners then
            if jsIncludes userGuess title || jsIncludes title userGuess then
              some (st, [.guessResult true (some 0) (some .dontSpoil) false])
            else
              some (st,
                [.chatMessage player.name guess "winner-chat" player.color,
                 .guessResult true (some 0) none true])
          else if senderId = currentTrack.submitterId then
            if jsIncludes userGuess title || jsIncludes title userGuess then
              some (st, [.guessResult false none (some .dontSpoilOwn) false])
            else
              some (st,
                [.chatMessage player.name guess "dj-chat" player.color,
                 .guessResult true (some 0) none true])
          else if isArtistMatch userGuess artist then
            some (st, [.guessResult false none (some .artistNotTitle) false,
              .chatMessage player.name guess "wrong" player.color])
          else if titleGuessAccepted userGuess title then
            let pts := pointsEarned (now - st.roundStartTime)
            let players1 := updateScore st.players senderId pts
            let djKnown := (players1.lookup currentTrack.submitterId).isSome
            let players2 :=
              if djKnown then updateScore players1 currentTrack.submitterId 3
              else players1
            let djPts :=
              if djKnown then st.currentDjPoints + 3 else st.currentDjPoints
            let winners := senderId :: st.roundWinners
            let st' := { st with
              players := players2
              roundWinners := winners
              currentDjPoints := djPts }
            let totalPossibleGuessers := players2.length - 1
            let base := [Effect.guessResult true (some pts) none false,
              Effect.correctMessage player.name pts player.color]
            some (st',
              if totalPossibleGuessers ≤ winners.length ∧
                  0 < totalPossibleGuessers then
                base ++ [Effect.scheduleEarlyEnd]
              else
                base)
          else
            some (st, [.guessResult false none none false,
              .chatMessage player.name guess "wrong" player.color])

/-- `Object.keys(players)[0]`: the host is always recomputed as the
first key of the players object (server.js lines 98, 105, 113, 122,
131, 162, 269-271), never stored. -/
def hostId (st : GameState) : Option String :=
  (st.players.map Prod.fst).head?

/-- The `disconnect` handler (server.js lines 264-275): delete the
player and its derived-set memberships; if anyone remains, broadcast
the roster with the recomputed host id `remainingIds[0]`. -/
def disconnect (st : GameState) (sid : String) : GameState × List Effect :=
  let players' := st.players.filter fun e => e.1 != sid
  let st' := { st with
    players := players'
    submittedPlayers := st.submittedPlayers.filter fun x => x != sid
    roundWinners := st.roundWinners.filter fun x => x != sid }
  let remainingIds := players'.map Prod.fst
  (st',
    if 0 < remainingIds.length then
      [Effect.playerJoinedEvent remainingIds.head?]
    else
      [])

/-! ## Round countdown and hint reveals (server.js lines 312-327)

`startRound` sets `timeLeft = 30` and starts a 1 Hz interval.  Each
tick decrements `timeLeft`, broadcasts it, pops one hidden position
(JS `Array.pop`, the **last** element) and emits `revealHint` whenever
`timeLeft <= 20 && timeLeft % 5 === 0` and hidden positions remain, and
finally stops the timer when `timeLeft <= 0`.  `ticksFrom t hidden`
returns the `(timeLeft, revealedIndex)` pairs of all `revealHint`
emissions of a round that starts the interval with `timeLeft = t` and
runs to natural expiry. -/

def ticksFrom : Nat → List Nat → List (Nat × Nat)
  | 0, _ => []
  | t + 1, hidden =>
    if t ≤ 20 ∧ t % 5 = 0 ∧ hidden ≠ [] then
      match hidden.getLast? with
      | some idx => (t, idx) :: ticksFrom t hidden.dropLast
      | none => ticksFrom t hidden
    else
      ticksFrom t hidden

/-- The `revealHint` emissions of a full 30-second round over the
hidden-index list built at server.js lines 291-301. -/
def revealEvents (hidden : List Nat) : List (Nat × Nat) :=
  ticksFrom 30 hidden

/-- The remaining-time stamps of the reveal emissions depend on the
hidden list only through its length; this function computes them from
the length alone (proof device for `ticksFrom`, not itself part of the
source). -/
def revealTimes : Nat → Nat → List Nat
  | 0, _ => []
  | t + 1, 0 => revealTimes t 0
  | t + 1, n + 1 =>
    if t ≤ 20 ∧ t % 5 = 0 then t :: revealTimes t n
    else revealTimes t (n + 1)

/-! ## Concrete sample states used by counterexamples and witnesses -/

/-- The dj of the sample round: submitter of the current track. -/
def djPlayer : Player :=
  { name := "Dana", color := "#ff0000", score := 0, hasSubmitted := true }

/-- An eligible guesser in the sample round. -/
def guesser : Player :=
  { name := "Gale", color := "#00ff00", score := 0, hasSubmitted := true }

def exTrack : Track :=
  { trackName := "Uptown Funk", artistName := "Mark Ronson",
    submitterId := "d", submitterName := "Dana" }

/-- A mid-round state: phase `playing`, round 0 active, track submitted
by `"d"`, round started at millisecond timestamp 1000. -/
def exState : GameState :=
  { players := [("d", djPlayer), ("g", guesser)]
    gameQueue := [exTrack]
    gamePhase := "playing"
    currentRoundIndex := 0
    roundStartTime := 1000
    submittedPlayers := ["d", "g"]
    roundWinners := []
    isRoundActive := true
    currentDjPoints := 0 }

/-- A second sample state whose track has a long title, for exercising
the half-length threshold of the win condition. -/
def sunTrack : Track :=
  { trackName := "Sunshine", artistName := "Moon",
    submitterId := "d", submitterName := "Dana" }

def sunState : GameState :=
  { exState with gameQueue := [sunTrack] }

/-- A three-player lobby, joined in the order `A`, `B`, `C`. -/
def lobbyState : GameState :=
  { players :=
      [("A", { name := "Ann", color := "#111111", score := 0,
               hasSubmitted := false }),
       ("B", { name := "Ben", color := "#222222", score := 0,
               hasSubmitted := false }),
       ("C", { name := "Cam", color := "#333333", score := 0,
               hasSubmitted := false })]
    gameQueue := []
    gamePhase := "lobby"
    currentRoundIndex := 0
    roundStartTime := 0
    submittedPlayers := []
    roundWinners := []
    isRoundActive := false
    currentDjPoints := 0 }

/-! ## Association-list score lemmas -/

/-- The score recorded for a player id. -/
def scoreOf (st : GameState) (pid : String) : Option Int :=
  (st.players.lookup pid).map Player.score

/-- A self-titled track: its cleaned title and artist coincide, so an
exact guess satisfies the artist condition and the title-win condition
at once. -/
def selfTitledTrack : Track :=
  { trackName := "Iron Maiden", artistName := "Iron Maiden",
    submitterId := "d", submitterName := "Dana" }

def selfTitledState : GameState :=
  { exState with gameQueue := [selfTitledTrack] }

/-- A track with a three-letter title, shorter than any guess of
length above two that strictly contains it. -/
def shortTrack : Track :=
  { trackName := "Sun", artistName := "Moon",
    submitterId := "d", submitterName := "Dana" }

def shortState : GameState :=
  { exState with gameQueue := [shortTrack] }

/-! ## Lemmas and claim theorems -/

/-- The embedded matrix satisfies exactly the recurrence of server.js
lines 18-22. -/
theorem levMatrix_succ_succ (a b : List Char) (i j : Nat) :
    levMatrix a b (i + 1) (j + 1) =
      if b.getD i ' ' = a.getD j ' ' then
        levMatrix a b i j
      else
        min (levMatrix a b i j + 1)
          (min (levMatrix a b (i + 1) j + 1) (levMatrix a b i (j + 1) + 1)) :=
  rfl

theorem length_takeWhile_lt_of_mem {c : Char} :
    ∀ {l : List Char}, c ∈ l →
      (l.takeWhile (fun x => x != c)).length < l.length := by
  intro l h
  induction l with
  | nil => simp at h
  | cons a l ih =>
    by_cases hac : a = c
    · subst hac
      simp [List.takeWhile]
    · have h' : c ∈ l := by
        rcases List.mem_cons.mp h with h | h
        · exact absurd h.symm hac
        · exact h
      have hb : (a != c) = true := bne_iff_ne.mpr hac
      simp only [List.takeWhile, hb, List.length_cons]
      exact Nat.succ_lt_succ (ih h')

theorem afterLastClose_length {close : Char} {cs rest : List Char}
    (h : afterLastClose close cs = some rest) : rest.length < cs.length := by
  unfold afterLastClose at h
  set seg := cs.takeWhile (fun x => x != '\n') with hseg
  by_cases hc : seg.contains close = true
  · simp only [hc, if_true, Option.some.injEq] at h
    subst h
    have hmem : close ∈ seg.reverse := by
      simp only [List.contains, List.elem_eq_mem, decide_eq_true_eq] at hc
      simpa using hc
    have h1 : (seg.reverse.takeWhile (fun x => x != close)).length <
        seg.length := by
      simpa using length_takeWhile_lt_of_mem hmem
    have h2 : seg.length ≤ cs.length :=
      (List.takeWhile_sublist _).length_le
    simp only [List.length_append, List.length_reverse, List.length_drop]
    omega
  · rw [if_neg hc] at h
    exact absurd h (by simp)

/-- The fuel bound is irrelevant as soon as it covers the input
length: the scan consumes at least one character per step. -/
theorem stripGroupsFuel_congr :
    ∀ (f₁ f₂ : Nat) (cs : List Char), cs.length ≤ f₁ → cs.length ≤ f₂ →
      stripGroupsFuel f₁ cs = stripGroupsFuel f₂ cs := by
  intro f₁
  induction f₁ with
  | zero =>
    intro f₂ cs h₁ _
    have : cs = [] := List.length_eq_zero.mp (Nat.le_zero.mp h₁)
    subst this
    cases f₂ <;> rfl
  | succ f ih =>
    intro f₂ cs h₁ h₂
    cases cs with
    | nil => cases f₂ <;> rfl
    | cons c cs =>
      cases f₂ with
      | zero => simp at h₂
      | succ g =>
        simp only [List.length_cons, Nat.succ_le_succ_iff] at h₁ h₂
        show stripGroupsFuel (f + 1) (c :: cs) =
          stripGroupsFuel (g + 1) (c :: cs)
        simp only [stripGroupsFuel]
        by_cases hp : c = '('
        · simp only [hp, if_true]
          cases hrest : afterLastClose ')' cs with
          | some rest =>
            have hlt := afterLastClose_length hrest
            exact ih g rest (by omega) (by omega)
          | none => rw [ih g cs h₁ h₂]
        · simp only [hp, if_false]
          by_cases hq : c = '['
          · simp only [hq, if_true]
            cases hrest : afterLastClose ']' cs with
            | some rest =>
              have hlt := afterLastClose_length hrest
              exact ih g rest (by omega) (by omega)
            | none => rw [ih g cs h₁ h₂]
          · simp only [hq, if_false]
            rw [ih g cs h₁ h₂]

/-- The dash scan also consumes at least one character per step. -/
theorem stripDashFuel_congr :
    ∀ (f₁ f₂ : Nat) (cs : List Char), cs.length ≤ f₁ → cs.length ≤ f₂ →
      stripDashFuel f₁ cs = stripDashFuel f₂ cs := by
  intro f₁
  induction f₁ with
  | zero =>
    intro f₂ cs h₁ _
    have : cs = [] := List.length_eq_zero.mp (Nat.le_zero.mp h₁)
    subst this
    cases f₂ <;> rfl
  | succ f ih =>
    intro f₂ cs h₁ h₂
    cases cs with
    | nil => cases f₂ <;> rfl
    | cons c cs =>
      cases f₂ with
      | zero => simp at h₂
      | succ g =>
        simp only [List.length_cons, Nat.succ_le_succ_iff] at h₁ h₂
        show stripDashFuel (f + 1) (c :: cs) = stripDashFuel (g + 1) (c :: cs)
        simp only [stripDashFuel]
        by_cases hp : c = '-'
        · simp only [hp, if_true]
          have hle := (List.dropWhile_sublist
            (l := cs) (fun x => x != '\n')).length_le
          exact ih g _ (by omega) (by omega)
        · simp only [hp, if_false]
          rw [ih g cs h₁ h₂]

theorem pointsEarned_eq_ceil (m : Nat) :
    pointsEarned m = max 5 ⌈(30 : ℚ) - (m : ℚ) / 1000⌉ := by
  unfold pointsEarned
  congr 1
  have h : (30 : ℚ) - (m : ℚ) / 1000 =
      -(((((m : Int) - 30000) : ℤ) : ℚ) / ((1000 : ℕ) : ℚ)) := by
    push_cast
    ring
  rw [h, Int.ceil_neg, Rat.floor_intCast_div_natCast]
  simp

/-! ## Properties of the Levenshtein embedding -/

theorem levMatrix_diag (a : List Char) : ∀ i, levMatrix a a i i = 0
  | 0 => rfl
  | i + 1 => by
    rw [levMatrix_succ_succ, if_pos rfl]
    exact levMatrix_diag a i

theorem levMatrix_symm (a b : List Char) :
    ∀ i j, levMatrix a b i j = levMatrix b a j i := by
  intro i
  induction i with
  | zero =>
    intro j
    cases j <;> rfl
  | succ i ihi =>
    intro j
    induction j with
    | zero => rfl
    | succ j ihj =>
      rw [levMatrix_succ_succ, levMatrix_succ_succ, ihi j, ihi (j + 1), ihj]
      by_cases h : b.getD i ' ' = a.getD j ' '
      · rw [if_pos h, if_pos h.symm]
      · rw [if_neg h, if_neg (fun hh => h hh.symm)]
        omega

theorem levenshtein_self (a : String) : levenshtein a a = 0 := by
  unfold levenshtein
  by_cases h : a.length = 0
  · simp [h]
  · simp only [h, if_false]
    exact levMatrix_diag a.data a.data.length

theorem levenshtein_symm (a b : String) :
    levenshtein a b = levenshtein b a := by
  unfold levenshtein
  by_cases ha : a.length = 0
  · by_cases hb : b.length = 0 <;> simp [ha, hb]
  · by_cases hb : b.length = 0
    · simp [ha, hb]
    · rw [if_neg ha, if_neg hb, if_neg hb, if_neg ha]
      exact levMatrix_symm a.data b.data b.data.length a.data.length

/-! ## Properties of the countdown tick loop -/

theorem ticksFrom_nil : ∀ t, ticksFrom t [] = []
  | 0 => rfl
  | t + 1 => by
    simp only [ticksFrom, ne_eq, not_true_eq_false, and_false, if_false]
    exact ticksFrom_nil t

theorem revealTimes_zero : ∀ t, revealTimes t 0 = []
  | 0 => rfl
  | t + 1 => by
    simp only [revealTimes]
    exact revealTimes_zero t

theorem ticksFrom_map_fst :
    ∀ (t : Nat) (hidden : List Nat),
      (ticksFrom t hidden).map Prod.fst = revealTimes t hidden.length := by
  intro t
  induction t with
  | zero => intro hidden; rfl
  | succ t ih =>
    intro hidden
    cases hidden with
    | nil =>
      rw [ticksFrom_nil]
      simp [revealTimes_zero]
    | cons c cs =>
      by_cases hcond : t ≤ 20 ∧ t % 5 = 0
      · have hfull : t ≤ 20 ∧ t % 5 = 0 ∧ (c :: cs) ≠ [] :=
          ⟨hcond.1, hcond.2, by simp⟩
        have hsome : (c :: cs).getLast?.isSome := by
          simp [List.getLast?_isSome]
        cases hget : (c :: cs).getLast? with
        | none => rw [hget] at hsome; simp at hsome
        | some x =>
          show ((if t ≤ 20 ∧ t % 5 = 0 ∧ (c :: cs) ≠ [] then
            match (c :: cs).getLast? with
            | some idx => (t, idx) :: ticksFrom t (c :: cs).dropLast
            | none => ticksFrom t (c :: cs)
            else ticksFrom t (c :: cs)).map Prod.fst) =
            revealTimes (t + 1) (c :: cs).length
          rw [if_pos hfull, hget]
          show t :: (ticksFrom t (c :: cs).dropLast).map Prod.fst =
            revealTimes (t + 1) (cs.length + 1)
          rw [ih, List.length_dropLast]
          show t :: revealTimes t cs.length =
            revealTimes (t + 1) (cs.length + 1)
          simp only [revealTimes]
          rw [if_pos hcond]
      · have hnot : ¬(t ≤ 20 ∧ t % 5 = 0 ∧ (c :: cs) ≠ []) := by
          intro hh
          exact hcond ⟨hh.1, hh.2.1⟩
        show ((if t ≤ 20 ∧ t % 5 = 0 ∧ (c :: cs) ≠ [] then
          match (c :: cs).getLast? with
          | some idx => (t, idx) :: ticksFrom t (c :: cs).dropLast
          | none => ticksFrom t (c :: cs)
          else ticksFrom t (c :: cs)).map Prod.fst) =
          revealTimes (t + 1) (c :: cs).length
        rw [if_neg hnot, ih]
        show revealTimes t (cs.length + 1) =
          revealTimes (t + 1) (cs.length + 1)
        simp only [revealTimes]
        rw [if_neg hcond]

theorem revealTimes_thirty (m : Nat) :
    revealTimes 30 (m + 5) = [20, 15, 10, 5, 0] := by
  simp [revealTimes]

theorem updateScore_cons (k : String) (p : Player)
    (ps : List (String × Player)) (pid : String) (d : Int) :
    updateScore ((k, p) :: ps) pid d =
      (if k = pid then (k, { p with score := p.score + d }) else (k, p)) ::
        updateScore ps pid d :=
  rfl

theorem lookup_updateScore_ne (ps : List (String × Player)) (pid q : String)
    (d : Int) (h : q ≠ pid) :
    (updateScore ps pid d).lookup q = ps.lookup q := by
  induction ps with
  | nil => rfl
  | cons e ps ih =>
    obtain ⟨k, p⟩ := e
    rw [updateScore_cons]
    by_cases hk : k = pid
    · have hqk : (q == k) = false :=
        beq_eq_false_iff_ne.mpr (by rw [hk]; exact h)
      rw [if_pos hk, List.lookup_cons, List.lookup_cons, hqk]
      exact ih
    · rw [if_neg hk, List.lookup_cons, List.lookup_cons]
      cases hqk : q == k with
      | true => rfl
      | false => exact ih

theorem lookup_updateScore_self (ps : List (String × Player)) (pid : String)
    (d : Int) :
    (updateScore ps pid d).lookup pid =
      (ps.lookup pid).map fun p => { p with score := p.score + d } := by
  induction ps with
  | nil => rfl
  | cons e ps ih =>
    obtain ⟨k, p⟩ := e
    rw [updateScore_cons]
    by_cases hk : k = pid
    · subst hk
      rw [if_pos rfl, List.lookup_cons, List.lookup_cons, beq_self_eq_true]
      rfl
    · have hqk : (pid == k) = false :=
        beq_eq_false_iff_ne.mpr fun hh => hk hh.symm
      rw [if_neg hk, List.lookup_cons, List.lookup_cons, hqk]
      exact ih

theorem map_fst_filter_key (ps : List (String × Player)) (sid : String) :
    (ps.filter fun e => e.1 != sid).map Prod.fst =
      (ps.map Prod.fst).filter fun x => x != sid := by
  induction ps with
  | nil => rfl
  | cons e ps ih =>
    by_cases h : (e.1 != sid) = true
    · simp [List.filter_cons, h, ih]
    · simp [List.filter_cons, h, ih]

/-! ## Claim theorems -/

/-- Claim C9 (confirmed): the edit-distance function computes the
classic Levenshtein distance: `editDistance(a,a) = 0` for every string,
it is symmetric, and `editDistance("kitten","sitting") = 3`. -/
theorem claim9_edit_distance :
    (∀ a : String, levenshtein a a = 0) ∧
    (∀ a b : String, levenshtein a b = levenshtein b a) ∧
    levenshtein "kitten" "sitting" = 3 :=
  ⟨levenshtein_self, levenshtein_symm, by decide⟩

/-- Claim C2, counterexample: with 5 hidden positions and no early
termination, the 30-second round emits a `revealHint` at remaining
times 20, 15, 10, 5 **and 0** — five events, not four: the tick
handler checks `timeLeft <= 20 && timeLeft % 5 === 0` before the
`timeLeft <= 0` round-end check, and `0 % 5 === 0`. -/
theorem claim2_counterexample :
    5 ≤ ([3, 1, 4, 0, 2] : List Nat).length ∧
    (revealEvents [3, 1, 4, 0, 2]).map Prod.fst = [20, 15, 10, 5, 0] ∧
    (revealEvents [3, 1, 4, 0, 2]).length ≠ 4 := by
  decide

/-- Claim C2 as amended: for every round started with the 30-second
countdown whose title has at least 5 hidden positions, absent early
termination or skip, exactly **5** `revealHint` events are emitted, at
remaining times 20, 15, 10, 5 and 0, one hidden position disclosed per
event. -/
theorem claim2_amended (hidden : List Nat) (h : 5 ≤ hidden.length) :
    (revealEvents hidden).map Prod.fst = [20, 15, 10, 5, 0] ∧
    (revealEvents hidden).length = 5 := by
  obtain ⟨m, hm⟩ := Nat.exists_eq_add_of_le h
  have h1 : (revealEvents hidden).map Prod.fst = [20, 15, 10, 5, 0] := by
    unfold revealEvents
    rw [ticksFrom_map_fst, hm, Nat.add_comm, revealTimes_thirty]
  refine ⟨h1, ?_⟩
  have h2 := congrArg List.length h1
  simpa using h2

theorem claim2_witness :
    5 ≤ ([0, 1, 2, 3, 4] : List Nat).length ∧
    ((revealEvents [0, 1, 2, 3, 4]).map Prod.fst = [20, 15, 10, 5, 0] ∧
      (revealEvents [0, 1, 2, 3, 4]).length = 5) :=
  ⟨by decide, claim2_amended [0, 1, 2, 3, 4] (by decide)⟩

/-- Claim C4 (code bug): a `submitGuess` from a connection that never
joined (`players[socket.id]` undefined) while the phase is `playing`
makes the handler throw a `TypeError` at `player.name` (server.js line
180), modelled here by the `none` result — the session does crash
instead of reinterpreting or rejecting the guess. -/
theorem claim4_unknown_player_crash :
    exState.gamePhase = "playing" ∧
    exState.players.lookup "ghost" = none ∧
    submitGuess exState "ghost" "hello" 1000 = none := by
  decide

/-- Claim C8 (confirmed): the host is always the first-joined surviving
player, recomputed from the player list on every membership change:
after a disconnect the broadcast host id is the head of the surviving
key list; concretely, with players `A, B, C` joined in that order,
`A` is host, removing `A` makes `B` host, and removing everyone leaves
no host. -/
theorem claim8_host_failover :
    (∀ (st : GameState) (sid : String),
        hostId (disconnect st sid).1 =
          ((st.players.map Prod.fst).filter fun x => x != sid).head?) ∧
    hostId lobbyState = some "A" ∧
    hostId (disconnect lobbyState "A").1 = some "B" ∧
    hostId
      (disconnect (disconnect (disconnect lobbyState "A").1 "B").1 "C").1 =
      none := by
  refine ⟨?_, by decide, by decide, by decide⟩
  intro st sid
  have hp : (disconnect st sid).1.players =
      st.players.filter fun e => e.1 != sid := by
    unfold disconnect
    rfl
  unfold hostId
  rw [hp, map_fst_filter_key]

/-- Claim C5 (confirmed): once a player is recorded in the round-winner
set, every further `submitGuess` by that player in the same round —
including resubmitting the exact title — leaves the whole game state
(in particular every score) unchanged and reports zero points: the
handler either answers with the spoiler warning or relays the text as
winner chat. -/
theorem claim5_winner_no_reaward (st : GameState) (senderId guess : String)
    (now : Nat) (player : Player) (tr : Track)
    (hphase : st.gamePhase = "playing")
    (hplayer : st.players.lookup senderId = some player)
    (hactive : st.isRoundActive = true)
    (htrack : st.gameQueue.get? st.currentRoundIndex = some tr)
    (hwin : senderId ∈ st.roundWinners) :
    ∃ effs, submitGuess st senderId guess now = some (st, effs) ∧
      (effs = [.guessResult true (some 0) (some .dontSpoil) false] ∨
        effs = [.chatMessage player.name guess "winner-chat" player.color,
          .guessResult true (some 0) none true]) := by
  unfold submitGuess
  rw [hphase, hplayer, hactive, htrack]
  simp only [ne_eq, not_true_eq_false, if_false]
  rw [if_pos hwin]
  by_cases hs : (jsIncludes (clean guess) (clean tr.trackName) ||
      jsIncludes (clean tr.trackName) (clean guess)) = true
  · rw [if_pos hs]
    exact ⟨_, rfl, Or.inl rfl⟩
  · rw [if_neg hs]
    exact ⟨_, rfl, Or.inr rfl⟩

theorem claim5_witness :
    ∃ effs,
      submitGuess { exState with roundWinners := ["g"] } "g" "Uptown Funk"
          9000 =
        some ({ exState with roundWinners := ["g"] }, effs) ∧
      (effs = [.guessResult true (some 0) (some .dontSpoil) false] ∨
        effs = [.chatMessage guesser.name "Uptown Funk" "winner-chat"
            guesser.color,
          .guessResult true (some 0) none true]) :=
  claim5_winner_no_reaward { exState with roundWinners := ["g"] } "g"
    "Uptown Funk" 9000 guesser exTrack (by decide) (by decide) (by decide)
    (by decide) (by decide)

/-- Claim C6 (confirmed): a guess from the current track's submitter
(the dj) never changes the game state — in particular the dj's own
score — whatever the text: the handler only emits the self-spoiler
warning or relays the text as dj chat. -/
theorem claim6_dj_self_guess (st : GameState) (senderId guess : String)
    (now : Nat) (player : Player) (tr : Track)
    (hphase : st.gamePhase = "playing")
    (hplayer : st.players.lookup senderId = some player)
    (hactive : st.isRoundActive = true)
    (htrack : st.gameQueue.get? st.currentRoundIndex = some tr)
    (hnotwin : senderId ∉ st.roundWinners)
    (hdj : senderId = tr.submitterId) :
    ∃ effs, submitGuess st senderId guess now = some (st, effs) ∧
      (effs = [.guessResult false none (some .dontSpoilOwn) false] ∨
        effs = [.chatMessage player.name guess "dj-chat" player.color,
          .guessResult true (some 0) none true]) := by
  unfold submitGuess
  rw [hphase, hplayer, hactive, htrack]
  simp only [ne_eq, not_true_eq_false, if_false]
  rw [if_neg hnotwin, if_pos hdj]
  by_cases hs : (jsIncludes (clean guess) (clean tr.trackName) ||
      jsIncludes (clean tr.trackName) (clean guess)) = true
  · rw [if_pos hs]
    exact ⟨_, rfl, Or.inl rfl⟩
  · rw [if_neg hs]
    exact ⟨_, rfl, Or.inr rfl⟩

theorem claim6_witness :
    ∃ effs,
      submitGuess exState "d" "uptown funk" 9000 = some (exState, effs) ∧
      (effs = [.guessResult false none (some .dontSpoilOwn) false] ∨
        effs = [.chatMessage djPlayer.name "uptown funk" "dj-chat"
            djPlayer.color,
          .guessResult true (some 0) none true]) :=
  claim6_dj_self_guess exState "d" "uptown funk" 9000 djPlayer exTrack
    (by decide) (by decide) (by decide) (by decide) (by decide) (by decide)

/-- Claim C7 (confirmed): an eligible guesser's guess that matches the
current track's artist is rejected with the corrective message (the
`guessResult` carries `correct: false` and the artist correction), the
state is unchanged — so nobody is marked a round winner and no points
are awarded. -/
theorem claim7_artist_rejected (st : GameState) (senderId guess : String)
    (now : Nat) (player : Player) (tr : Track)
    (hphase : st.gamePhase = "playing")
    (hplayer : st.players.lookup senderId = some player)
    (hactive : st.isRoundActive = true)
    (htrack : st.gameQueue.get? st.currentRoundIndex = some tr)
    (hnotwin : senderId ∉ st.roundWinners)
    (hnotdj : senderId ≠ tr.submitterId)
    (hartist : isArtistMatch (clean guess) (clean tr.artistName) = true) :
    submitGuess st senderId guess now =
      some (st, [.guessResult false none (some .artistNotTitle) false,
        .chatMessage player.name guess "wrong" player.color]) := by
  unfold submitGuess
  rw [hphase, hplayer, hactive, htrack]
  simp only [ne_eq, not_true_eq_false, if_false]
  rw [if_neg hnotwin, if_neg hnotdj, if_pos hartist]

theorem claim7_witness :
    submitGuess exState "g" "Mark Ronson" 9000 =
      some (exState, [.guessResult false none (some .artistNotTitle) false,
        .chatMessage guesser.name "Mark Ronson" "wrong" guesser.color]) :=
  claim7_artist_rejected exState "g" "Mark Ronson" 9000 guesser exTrack
    (by decide) (by decide) (by decide) (by decide) (by decide) (by decide)
    (by decide)

/-- Claim C10 (confirmed): the artist check runs before every title
check, so a guess that satisfies both the artist-containment condition
and the full title-win condition (as on a self-titled track) is still
rejected as artist-only, the state is unchanged, and the guess is never
scored as a correct title guess. -/
theorem claim10_artist_precedence (st : GameState) (senderId guess : String)
    (now : Nat) (player : Player) (tr : Track)
    (hphase : st.gamePhase = "playing")
    (hplayer : st.players.lookup senderId = some player)
    (hactive : st.isRoundActive = true)
    (htrack : st.gameQueue.get? st.currentRoundIndex = some tr)
    (hnotwin : senderId ∉ st.roundWinners)
    (hnotdj : senderId ≠ tr.submitterId)
    (hartist : isArtistMatch (clean guess) (clean tr.artistName) = true)
    (_htitle : titleGuessAccepted (clean guess) (clean tr.trackName) = true) :
    submitGuess st senderId guess now =
      some (st, [.guessResult false none (some .artistNotTitle) false,
        .chatMessage player.name guess "wrong" player.color]) ∧
    (submitGuess st senderId guess now).map (fun r => r.1.roundWinners) =
      some st.roundWinners := by
  have h : submitGuess st senderId guess now =
      some (st, [.guessResult false none (some .artistNotTitle) false,
        .chatMessage player.name guess "wrong" player.color]) := by
    unfold submitGuess
    rw [hphase, hplayer, hactive, htrack]
    simp only [ne_eq, not_true_eq_false, if_false]
    rw [if_neg hnotwin, if_neg hnotdj, if_pos hartist]
  exact ⟨h, by rw [h]; rfl⟩

theorem claim10_witness :
    submitGuess selfTitledState "g" "iron maiden" 9000 =
      some (selfTitledState,
        [.guessResult false none (some .artistNotTitle) false,
         .chatMessage guesser.name "iron maiden" "wrong" guesser.color]) ∧
    (submitGuess selfTitledState "g" "iron maiden" 9000).map
        (fun r => r.1.roundWinners) =
      some selfTitledState.roundWinners :=
  claim10_artist_precedence selfTitledState "g" "iron maiden" 9000 guesser
    selfTitledTrack (by decide) (by decide) (by decide) (by decide)
    (by decide) (by decide) (by decide) (by decide)

/-- Common shape of the winning branch of `submitGuess` (server.js
lines 227-247): whenever an eligible guesser's guess passes the title
win condition and is not an artist match, the handler succeeds, adds
`pointsEarned` to the guesser's score, and records the guesser as a
round winner. -/
theorem submitGuess_correct_branch (st : GameState) (senderId guess : String)
    (now : Nat) (player : Player) (tr : Track)
    (hphase : st.gamePhase = "playing")
    (hplayer : st.players.lookup senderId = some player)
    (hactive : st.isRoundActive = true)
    (htrack : st.gameQueue.get? st.currentRoundIndex = some tr)
    (hnotwin : senderId ∉ st.roundWinners)
    (hnotdj : senderId ≠ tr.submitterId)
    (hartist : isArtistMatch (clean guess) (clean tr.artistName) = false)
    (haccept : titleGuessAccepted (clean guess) (clean tr.trackName) = true) :
    ∃ st' effs, submitGuess st senderId guess now = some (st', effs) ∧
      scoreOf st' senderId =
        some (player.score + pointsEarned (now - st.roundStartTime)) ∧
      senderId ∈ st'.roundWinners := by
  unfold submitGuess
  rw [hphase, hplayer, hactive, htrack]
  simp only [ne_eq, not_true_eq_false, if_false]
  rw [if_neg hnotwin, if_neg hnotdj, if_neg (by simp [hartist]),
    if_pos haccept]
  by_cases hdjk : (List.lookup tr.submitterId
      (updateScore st.players senderId
        (pointsEarned (now - st.roundStartTime)))).isSome = true
  · simp only [hdjk, if_true]
    refine ⟨_, _, rfl, ?_, List.mem_cons_self _ _⟩
    show ((updateScore (updateScore st.players senderId
        (pointsEarned (now - st.roundStartTime))) tr.submitterId 3).lookup
          senderId).map Player.score = _
    rw [lookup_updateScore_ne _ _ _ _ hnotdj, lookup_updateScore_self,
      hplayer]
    rfl
  · simp only [hdjk, if_false]
    refine ⟨_, _, rfl, ?_, List.mem_cons_self _ _⟩
    show ((updateScore st.players senderId
        (pointsEarned (now - st.roundStartTime))).lookup
          senderId).map Player.score = _
    rw [lookup_updateScore_self, hplayer]
    rfl

/-- Claim C1, counterexample: neither direction of the claimed
`length > 2` substring rule is the win condition of server.js.
First input: guess `"uns"` is longer than two characters and a
substring of the title `"Sunshine"`, yet it is rejected (the code
requires the contained guess to be at least half the title length,
line 222).  Second input: the title `"Sun"` is a substring of the
guess `"sun is shining"`, yet it is rejected (the code never tests
`userGuess.includes(title)` in the win condition). -/
theorem claim1_counterexample :
    (2 < (clean "uns").length ∧
      jsIncludes (clean sunTrack.trackName) (clean "uns") = true ∧
      submitGuess sunState "g" "uns" 1000 =
        some (sunState, [.guessResult false none none false,
          .chatMessage "Gale" "uns" "wrong" "#00ff00"])) ∧
    (2 < (clean "sun is shining").length ∧
      jsIncludes (clean "sun is shining") (clean shortTrack.trackName) =
        true ∧
      submitGuess shortState "g" "sun is shining" 1000 =
        some (shortState, [.guessResult false none none false,
          .chatMessage "Gale" "sun is shining" "wrong" "#00ff00"])) := by
  decide

/-- Claim C1 as amended: for every eligible guesser (not the dj, not
already a winner) whose guess is not an artist match, a normalized
guess that is a substring of the normalized title **and at least half
the title's length** is accepted as a title match and the guesser is
scored correct (the other two win rules, exact equality and typo
tolerance, remain independently sufficient in the code but are not
needed here). -/
theorem claim1_amended (st : GameState) (senderId guess : String)
    (now : Nat) (player : Player) (tr : Track)
    (hphase : st.gamePhase = "playing")
    (hplayer : st.players.lookup senderId = some player)
    (hactive : st.isRoundActive = true)
    (htrack : st.gameQueue.get? st.currentRoundIndex = some tr)
    (hnotwin : senderId ∉ st.roundWinners)
    (hnotdj : senderId ≠ tr.submitterId)
    (hartist : isArtistMatch (clean guess) (clean tr.artistName) = false)
    (hsub : jsIncludes (clean tr.trackName) (clean guess) = true)
    (hlen : (clean tr.trackName).length ≤ 2 * (clean guess).length) :
    ∃ st' effs, submitGuess st senderId guess now = some (st', effs) ∧
      scoreOf st' senderId =
        some (player.score + pointsEarned (now - st.roundStartTime)) ∧
      senderId ∈ st'.roundWinners := by
  apply submitGuess_correct_branch st senderId guess now player tr hphase
    hplayer hactive htrack hnotwin hnotdj hartist
  unfold titleGuessAccepted isSignificantPart
  rw [hsub]
  simp [hlen]

theorem claim1_witness :
    ∃ st' effs, submitGuess sunState "g" "sunsh" 3500 = some (st', effs) ∧
      scoreOf st' "g" =
        some (guesser.score + pointsEarned (3500 - sunState.roundStartTime)) ∧
      "g" ∈ st'.roundWinners :=
  claim1_amended sunState "g" "sunsh" 3500 guesser sunTrack (by decide)
    (by decide) (by decide) (by decide) (by decide) (by decide) (by decide)
    (by decide) (by decide)

theorem pointsEarned_antitone {m₁ m₂ : Nat} (h : m₁ ≤ m₂) :
    pointsEarned m₂ ≤ pointsEarned m₁ := by
  unfold pointsEarned
  have h1 : ((m₁ : Int) - 30000) / 1000 ≤ ((m₂ : Int) - 30000) / 1000 :=
    Int.ediv_le_ediv (by norm_num) (by omega)
  omega

theorem pointsEarned_floor (m : Nat) : 5 ≤ pointsEarned m := by
  unfold pointsEarned
  exact le_max_left _ _

/-- Claim C3 (confirmed): a correct title guess by an eligible player
is awarded `max(5, ceil(30 - elapsedSeconds))` points, `elapsedSeconds`
being the wall-clock seconds since round start; the award never
increases with elapsed time and is never below 5. -/
theorem claim3_scoring (st : GameState) (senderId guess : String)
    (now : Nat) (player : Player) (tr : Track)
    (hphase : st.gamePhase = "playing")
    (hplayer : st.players.lookup senderId = some player)
    (hactive : st.isRoundActive = true)
    (htrack : st.gameQueue.get? st.currentRoundIndex = some tr)
    (hnotwin : senderId ∉ st.roundWinners)
    (hnotdj : senderId ≠ tr.submitterId)
    (hartist : isArtistMatch (clean guess) (clean tr.artistName) = false)
    (haccept : titleGuessAccepted (clean guess) (clean tr.trackName) = true)
    (_hnow : st.roundStartTime ≤ now) :
    (∃ st' effs, submitGuess st senderId guess now = some (st', effs) ∧
      scoreOf st' senderId = some (player.score +
        max 5 ⌈(30 : ℚ) - ((now - st.roundStartTime : Nat) : ℚ) / 1000⌉)) ∧
    (∀ m₁ m₂ : Nat, m₁ ≤ m₂ → pointsEarned m₂ ≤ pointsEarned m₁) ∧
    (∀ m : Nat, 5 ≤ pointsEarned m) := by
  refine ⟨?_, fun m₁ m₂ h => pointsEarned_antitone h,
    fun m => pointsEarned_floor m⟩
  obtain ⟨st', effs, heq, hscore, _⟩ := submitGuess_correct_branch st
    senderId guess now player tr hphase hplayer hactive htrack hnotwin
    hnotdj hartist haccept
  refine ⟨st', effs, heq, ?_⟩
  rw [hscore, pointsEarned_eq_ceil]

theorem claim3_witness :
    (∃ st' effs, submitGuess sunState "g" "sunshine" 2500 =
        some (st', effs) ∧
      scoreOf st' "g" = some (guesser.score +
        max 5 ⌈(30 : ℚ) - ((2500 - sunState.roundStartTime : Nat) : ℚ) /
          1000⌉)) ∧
    (∀ m₁ m₂ : Nat, m₁ ≤ m₂ → pointsEarned m₂ ≤ pointsEarned m₁) ∧
    (∀ m : Nat, 5 ≤ pointsEarned m) :=
  claim3_scoring sunState "g" "sunshine" 2500 guesser sunTrack (by decide)
    (by decide) (by decide) (by decide) (by decide) (by decide) (by decide)
    (by decide) (by decide)

/-! ## Text normalizer `clean` (server.js lines 52-59)

`clean` lowercases, applies `replace(/\(.*\)|\[.*\]/g, "")` (greedy:
a match runs from an opening bracket to the last matching closer on the
same line), applies the dash replacement (greedy: from a dash to the
end of the line), removes every character that is neither a word
character `\w` nor whitespace `\s`, and trims.  The two scanning
replacements are written with an explicit fuel argument (initialized to
the input length, which the scan never exhausts) so that they are
structurally recursive and kernel-computable. -/

end MusicGame
